import Mathlib

/-!
Verification of the HONEST repository against its specification.

The development shallowly embeds the TypeScript sources:
* src/src/_core/shared/standards/HONEST_CORE.ts      (namespace HonestCore)
* src/src/protocols/HONEST_Protocol_v1.ts            (namespace Protocol1)
* src/src/App.tsx, HONEST-LEDGER part                (namespace Ledger)
* .../drizzzle/scripts/server/websockets.ts          (namespace Websockets)
* src/unnamed/part_005 eigenstate helpers            (namespace Eigenstate)

JavaScript numbers are modelled exactly: where the special values NaN and
Infinity matter to a claim, a number is a value of the inductive type
JSNum (an exact rational, NaN, +Infinity or -Infinity) and the arithmetic
follows the IEEE-754 rules on those values; negative zero is not
distinguished from zero, and no claim here depends on that distinction.
Where only finite values occur, a number is an exact rational.
-/

/-- Exact rational addition phrased through Rat.divInt, so that concrete
values reduce inside the kernel; ratAdd_eq below identifies it with
Mathlib addition. -/
def ratAdd (a b : ℚ) : ℚ :=
  Rat.divInt (a.num * b.den + b.num * a.den) (a.den * b.den)

/-- Exact rational subtraction through Rat.divInt; equal to Mathlib
subtraction by ratSub_eq. -/
def ratSub (a b : ℚ) : ℚ :=
  Rat.divInt (a.num * b.den - b.num * a.den) (a.den * b.den)

/-- Exact rational multiplication through Rat.divInt; equal to Mathlib
multiplication by ratMul_eq. -/
def ratMul (a b : ℚ) : ℚ :=
  Rat.divInt (a.num * b.num) (a.den * b.den)

/-- Exact rational division through Rat.divInt; equal to Mathlib
division by ratDiv_eq (both send division by zero to zero, a case the
embedding below never reaches because the sources guard it). -/
def ratDiv (a b : ℚ) : ℚ :=
  Rat.divInt (a.num * b.den) (a.den * b.num)

/-- The largest k ≤ bound with k * k ≤ n, by plain structural recursion
so that concrete values reduce inside the kernel. -/
def sqrtFrom : Nat → Nat → Nat
  | 0, _ => 0
  | b + 1, n => if (b + 1) * (b + 1) ≤ n then b + 1 else sqrtFrom b n

/-- The floor square root of n, the largest k with k * k ≤ n. -/
def natFloorSqrt (n : Nat) : Nat := sqrtFrom n n

/-- Computable rational stand-in for the square root used by Math.sqrt:
the floor square root of n·d over d for a reduced fraction n/d.  Every
theorem below depends only on the facts that it maps zero to zero and a
positive rational to a positive rational, which it shares with the exact
square root. -/
def ratSqrt (q : ℚ) : ℚ :=
  mkRat (natFloorSqrt (q.num.toNat * q.den)) q.den

deriving instance DecidableEq for Except

namespace HonestCore

/-- Model of a JavaScript number: an exact rational, NaN, or a signed
infinity.  Negative zero is identified with zero. -/
inductive JSNum where
  | num (q : ℚ)
  | nan
  | inf
  | ninf
deriving DecidableEq, Inhabited

/-- JavaScript addition on numbers: NaN is absorbing, infinities of equal
sign are absorbing, opposite infinities give NaN. -/
def jsAdd : JSNum → JSNum → JSNum
  | .num a, .num b => .num (ratAdd a b)
  | .nan, _ => .nan
  | _, .nan => .nan
  | .inf, .ninf => .nan
  | .ninf, .inf => .nan
  | .inf, _ => .inf
  | _, .inf => .inf
  | .ninf, _ => .ninf
  | _, .ninf => .ninf

/-- JavaScript subtraction on numbers. -/
def jsSub : JSNum → JSNum → JSNum
  | .num a, .num b => .num (ratSub a b)
  | .nan, _ => .nan
  | _, .nan => .nan
  | .inf, .inf => .nan
  | .ninf, .ninf => .nan
  | .inf, _ => .inf
  | _, .inf => .ninf
  | .ninf, _ => .ninf
  | _, .ninf => .inf

/-- JavaScript division on numbers.  A nonzero finite value divided by
zero gives a signed infinity, zero divided by zero gives NaN. -/
def jsDiv : JSNum → JSNum → JSNum
  | .num a, .num b =>
      if b = 0 then
        if a = 0 then .nan else if a > 0 then .inf else .ninf
      else .num (ratDiv a b)
  | .nan, _ => .nan
  | _, .nan => .nan
  | .inf, .inf => .nan
  | .inf, .ninf => .nan
  | .ninf, .inf => .nan
  | .ninf, .ninf => .nan
  | .inf, .num b => if b < 0 then .ninf else .inf
  | .ninf, .num b => if b < 0 then .inf else .ninf
  | .num _, .inf => .num 0
  | .num _, .ninf => .num 0

/-- Model of Math.pow(x, 2), written as a square. -/
def jsPow2 : JSNum → JSNum
  | .num a => .num (ratMul a a)
  | .nan => .nan
  | .inf => .inf
  | .ninf => .inf

/-- Model of Math.sqrt on JavaScript numbers: NaN on negative inputs,
otherwise the (modelled) square root. -/
def jsSqrt : JSNum → JSNum
  | .num a => if a < 0 then .nan else .num (ratSqrt a)
  | .nan => .nan
  | .inf => .inf
  | .ninf => .nan

/-- Model of Math.min on two numbers: NaN propagates. -/
def jsMin : JSNum → JSNum → JSNum
  | .num a, .num b => .num (min a b)
  | .nan, _ => .nan
  | _, .nan => .nan
  | .inf, y => y
  | x, .inf => x
  | .ninf, _ => .ninf
  | _, .ninf => .ninf

/-- The JavaScript strict greater-than comparison: false whenever either
side is NaN. -/
def jsGtB : JSNum → JSNum → Bool
  | .num a, .num b => a > b
  | .nan, _ => false
  | _, .nan => false
  | .inf, .inf => false
  | .inf, _ => true
  | _, .inf => false
  | .ninf, _ => false
  | _, .ninf => true

/-- The JavaScript strict less-than comparison: false whenever either
side is NaN. -/
def jsLtB : JSNum → JSNum → Bool
  | .num a, .num b => a < b
  | .nan, _ => false
  | _, .nan => false
  | .inf, _ => false
  | .ninf, .ninf => false
  | .ninf, _ => true
  | _, .inf => true
  | _, .ninf => false

/-- OracleFeed of HONEST_CORE.ts.  The optional signature field plays no
role in any function modelled here and is omitted. -/
structure OracleFeed where
  source : String
  asset : String
  metric : String
  value : JSNum
  timestamp : JSNum
deriving DecidableEq, Inhabited

/-- verifyOracleFeed of HONEST_CORE.ts (lines 27-43).  Date.now() is the
explicit parameter now, an exact integer-valued rational in practice.
The typeof checks of the source are identities here because the model
types value as a number and the three fields as strings, as the
TypeScript interface does. -/
def verifyOracleFeed (now : ℚ) (feed : OracleFeed) : Bool :=
  let isRecent := jsLtB (jsSub (.num now) feed.timestamp) (.num 60000)
  let isPositiveNumber := jsGtB feed.value (.num 0)
  let hasRequiredFields :=
    decide (feed.source.length > 0) &&
    decide (feed.asset.length > 0) &&
    decide (feed.metric.length > 0)
  isRecent && isPositiveNumber && hasRequiredFields

/-- HonestMetric of HONEST_CORE.ts.  The optional coherence and
exhaustion fields play no role in the functions modelled here. -/
structure HonestMetric where
  id : String
  name : String
  description : String
  inputs : List OracleFeed

/-- The comparator order induced by the JavaScript sort callback that
returns a - b: a stays before b unless a - b compares greater than
zero. -/
def jsLeRel (a b : JSNum) : Prop := ¬ (jsGtB (jsSub a b) (.num 0) = true)

instance : DecidableRel jsLeRel := fun _ _ => instDecidableNot

/-- calculateHonestMetric of HONEST_CORE.ts (lines 67-92).  An empty
input list returns 0; a non-empty list with no verified feed throws,
modelled as Except.error; one verified feed returns its value; several
verified feeds return the element at index ⌊n/2⌋ of the list of values
sorted ascending by the numeric comparator callback returning a - b,
modelled by a stable insertion sort under the induced order. -/
def calculateHonestMetric (now : ℚ) (metric : HonestMetric) : Except String JSNum :=
  if metric.inputs.length = 0 then .ok (.num 0)
  else
    let verifiedFeeds := metric.inputs.filter (fun feed => verifyOracleFeed now feed)
    if verifiedFeeds.length = 0 then
      .error ("[HONEST-CORE] Cannot calculate " ++ metric.id ++ ": No verified feeds.")
    else if verifiedFeeds.length = 1 then .ok verifiedFeeds.headI.value
    else
      let values := (verifiedFeeds.map (fun feed => feed.value)).insertionSort jsLeRel
      .ok (values.getD (values.length / 2) (.num 0))

/-- calculateCoherence of HONEST_CORE.ts (lines 101-117).  At most one
feed gives 1.0; otherwise one minus the capped ratio of the standard
deviation to the mean, with the JavaScript arithmetic of the source
(the ratio is an infinity for a zero mean and positive deviation, and
NaN when both are zero). -/
def calculateCoherence (feeds : List OracleFeed) : JSNum :=
  if feeds.length ≤ 1 then .num 1
  else
    let values := feeds.map (fun f => f.value)
    let mean := jsDiv (values.foldl jsAdd (.num 0)) (.num values.length)
    let variance :=
      jsDiv (values.foldl (fun sum v => jsAdd sum (jsPow2 (jsSub v mean))) (.num 0))
        (.num values.length)
    let stdDev := jsSqrt variance
    let normalizedStdDev := jsDiv stdDev mean
    jsSub (.num 1) (jsMin normalizedStdDev (.num 1))

end HonestCore

namespace Protocol1

/-- verifyOracleFeed of HONEST_Protocol_v1.ts (lines 25-35): only the
recency of the timestamp and the positivity of the value are checked;
unlike the HONEST_CORE version, the string fields are not inspected.
The feed shape is the same as in HONEST_CORE and is reused. -/
def verifyOracleFeed (now : ℚ) (feed : HonestCore.OracleFeed) : Bool :=
  let isRecent := HonestCore.jsLtB (HonestCore.jsSub (.num now) feed.timestamp) (.num 60000)
  let isPositiveNumber := HonestCore.jsGtB feed.value (.num 0)
  isRecent && isPositiveNumber

end Protocol1

namespace Websockets

/-- The dimensions record of an EigenstateUpdate in websockets.ts.  The
values reaching calculateCoherence are finite, so they are modelled as
exact rationals. -/
structure Dimensions where
  price : ℚ
  volume : ℚ
  momentum : ℚ
  sentiment : ℚ
  temporal : ℚ
  spatial : ℚ
deriving DecidableEq

/-- calculateCoherence of websockets.ts (lines 256-277): the weighted sum
of the six dimensions with the fixed weights of the source, clamped to
the interval [-1, 1] by Math.max(-1, Math.min(1, coherence)). -/
def calculateCoherence (dimensions : Dimensions) : ℚ :=
  let coherence :=
    dimensions.price * 0.25 + dimensions.volume * 0.15 +
    dimensions.momentum * 0.25 + dimensions.sentiment * 0.15 +
    dimensions.temporal * 0.10 + dimensions.spatial * 0.10
  max (-1) (min 1 coherence)

/-- The three-valued trading decision of websockets.ts. -/
inductive Decision where
  | BUY
  | SELL
  | HOLD
deriving DecidableEq

/-- determineDecision of websockets.ts (lines 279-283). -/
def determineDecision (coherence : ℚ) (dimensions : Dimensions) : Decision :=
  if coherence > 0.5 ∧ dimensions.momentum > 0.3 then .BUY
  else if coherence < -0.5 ∧ dimensions.momentum < -0.3 then .SELL
  else .HOLD

end Websockets

namespace Eigenstate

/-- The dimensions record of EigenstateData in src/unnamed/part_005,
over the reals because the source applies tanh, sin, cos and sqrt. -/
structure Dimensions where
  price : ℝ
  volume : ℝ
  momentum : ℝ
  sentiment : ℝ
  temporal : ℝ
  spatial : ℝ

/-- calculateEigenstate of src/unnamed/part_005 (lines 120-149), with
Date.now() passed explicitly as nowMs.  The marketCap argument of the
source is accepted but, as in the source, never used. -/
noncomputable def calculateEigenstate
    (price volume priceChange marketCap nowMs : ℝ) : Dimensions :=
  let _ := marketCap
  let priceNorm := Real.tanh (price / 50000)
  let volumeNorm := Real.tanh (volume / 1000000000)
  let momentumNorm := Real.tanh (priceChange / 10)
  let sentiment := (priceNorm + momentumNorm) / 2
  let temporal := Real.sin (nowMs / 1000 / 3600) * 0.3
  let spatial := Real.cos (nowMs / 1000 / 3600) * 0.3
  { price := priceNorm, volume := volumeNorm, momentum := momentumNorm,
    sentiment := sentiment, temporal := temporal, spatial := spatial }

/-- calculateCoherence of src/unnamed/part_005 (lines 155-168): one minus
the capped doubled standard deviation of the six dimension values, with
the sign of the mean. -/
noncomputable def calculateCoherence (dimensions : Dimensions) : ℝ :=
  let values := [dimensions.price, dimensions.volume, dimensions.momentum,
    dimensions.sentiment, dimensions.temporal, dimensions.spatial]
  let mean := values.sum / (values.length : ℝ)
  let variance := (values.map (fun b => (b - mean) ^ 2)).sum / (values.length : ℝ)
  let stdDev := Real.sqrt variance
  let coherence := 1 - min (stdDev * 2) 1
  if mean ≥ 0 then coherence else -coherence

end Eigenstate

namespace Ledger

/-- Truncation to a signed 32-bit integer, the JavaScript ToInt32
operation performed by the bitwise operators of the source. -/
def toInt32 (x : Int) : Int := (x + 2 ^ 31) % 2 ^ 32 - 2 ^ 31

/-- One step of the hash loop of hashString in App.tsx (lines 216-224):
hash = ((hash &lt;&lt; 5) - hash) + char, followed by hash |= 0.  The shift
works on 32-bit integers, so it is multiplication by 32 followed by
ToInt32; the subtraction and addition are exact in doubles at these
magnitudes, and the final |= 0 is another ToInt32. -/
def hashStep (hash : Int) (char : Nat) : Int :=
  toInt32 (toInt32 (hash * 32) - hash + char)

/-- Left-pads a string with zero characters up to length k, the
padStart(k, "0") of the source. -/
def padZeros (k : Nat) (s : String) : String :=
  if s.length ≥ k then s else String.mk (List.replicate (k - s.length) '0') ++ s

/-- hashString of App.tsx (lines 216-224).  charCodeAt is modelled by
the Unicode code point, which agrees with the UTF-16 code unit on the
basic multilingual plane; every string hashed here is ASCII.
Math.abs(hash).toString(16) is the lowercase hexadecimal expansion of
the absolute value. -/
def hashString (str : String) : String :=
  padZeros 8 (String.mk (Nat.toDigits 16
    (str.data.foldl (fun hash c => hashStep hash c.toNat) 0).natAbs))

/-- The smallest k with d dividing 10^k, searched up to 64; none when
the denominator has a prime factor other than 2 and 5. -/
def pow10Exp (d : Nat) : Option Nat :=
  (List.range 65).find? (fun k => 10 ^ k % d == 0)

/-- Decimal expansion of the nonnegative rational n/d in lowest terms:
the plain integer when d = 1, otherwise integer part, a dot and the
fraction digits.  For a reduced fraction the minimal power of ten
leaves no trailing zero, so this agrees with the JavaScript
number-to-string conversion on every exactly-decimal value, the only
finite values the records of this development carry.  A denominator
that is no divisor of a power of ten is printed n/d; no JavaScript
double in the plain-decimal printing range produces one. -/
def decimalOfNonneg (n d : Nat) : String :=
  match pow10Exp d with
  | some k =>
    if k = 0 then toString n
    else
      let m := n * (10 ^ k / d)
      toString (m / 10 ^ k) ++ "." ++ padZeros k (toString (m % 10 ^ k))
  | none => toString n ++ "/" ++ toString d

/-- JSON.stringify of a finite number, modelled on exact rationals. -/
def jsonRat (q : ℚ) : String :=
  if q < 0 then "-" ++ decimalOfNonneg (-q).num.toNat (-q).den
  else decimalOfNonneg q.num.toNat q.den

/-- JSON.stringify of a string: quotation without escaping, valid for
strings free of quotes, backslashes and control characters, which all
strings of this development are. -/
def jsonStr (s : String) : String := "\"" ++ s ++ "\""

/-- A numeric JSON object entry for an optional field, empty when the
field is undefined, since JSON.stringify omits undefined properties. -/
def jsonOptNumField (name : String) (o : Option ℚ) : String :=
  match o with
  | none => ""
  | some q => ",\"" ++ name ++ "\":" ++ jsonRat q

/-- The optional sources entry of the canonical data string. -/
def jsonOptSourcesField (o : Option (List String)) : String :=
  match o with
  | none => ""
  | some l => ",\"sources\":[" ++ String.intercalate "," (l.map jsonStr) ++ "]"

/-- SensoryTranslation of HONEST_SENSE as used by App.tsx. -/
structure SensoryTranslation where
  audioFrequency : ℚ
  hapticIntensity : ℚ
  visualColor : String
  visualPulse : ℚ
deriving DecidableEq

/-- HonestRecord of App.tsx (lines 54-63). -/
structure HonestRecord where
  metricId : String
  metricValue : ℚ
  translation : SensoryTranslation
  timestamp : ℚ
  recordHash : String
  coherence : Option ℚ
  exhaustion : Option ℚ
  sources : Option (List String)
deriving DecidableEq

/-- The canonical string representation hashed by createHonestRecord
(lines 88-98) and recomputed by verifyHonestRecord (lines 124-134);
both build exactly this JSON text, in this property order.  The
visualPulse component of the translation does not appear in it. -/
def ledgerDataString (metricId : String) (metricValue : ℚ)
    (audioFrequency hapticIntensity : ℚ) (visualColor : String)
    (timestamp : ℚ) (coherence exhaustion : Option ℚ)
    (sources : Option (List String)) : String :=
  "\x7b\"metricId\":" ++ jsonStr metricId ++
  ",\"metricValue\":" ++ jsonRat metricValue ++
  ",\"audioFrequency\":" ++ jsonRat audioFrequency ++
  ",\"hapticIntensity\":" ++ jsonRat hapticIntensity ++
  ",\"visualColor\":" ++ jsonStr visualColor ++
  ",\"timestamp\":" ++ jsonRat timestamp ++
  jsonOptNumField "coherence" coherence ++
  jsonOptNumField "exhaustion" exhaustion ++
  jsonOptSourcesField sources ++ "\x7d"

/-- createHonestRecord of App.tsx (lines 77-114), with Date.now()
passed explicitly as now. -/
def createHonestRecord (metricId : String) (metricValue : ℚ)
    (translation : SensoryTranslation) (coherence exhaustion : Option ℚ)
    (sources : Option (List String)) (now : ℚ) : HonestRecord :=
  let timestamp := now
  let dataString := ledgerDataString metricId metricValue
    translation.audioFrequency translation.hapticIntensity
    translation.visualColor timestamp coherence exhaustion sources
  let recordHash := hashString dataString
  { metricId := metricId, metricValue := metricValue,
    translation := translation, timestamp := timestamp,
    recordHash := recordHash, coherence := coherence,
    exhaustion := exhaustion, sources := sources }

/-- verifyHonestRecord of App.tsx (lines 123-144): recomputes the hash
of the canonical data string of the record fields and compares it with
the stored recordHash. -/
def verifyHonestRecord (record : HonestRecord) : Bool :=
  let dataString := ledgerDataString record.metricId record.metricValue
    record.translation.audioFrequency record.translation.hapticIntensity
    record.translation.visualColor record.timestamp record.coherence
    record.exhaustion record.sources
  let computedHash := hashString dataString
  computedHash == record.recordHash

/-- JavaScript falsiness of a string: only the empty string. -/
def falsyS (s : String) : Bool := s == ""

/-- JavaScript falsiness of a finite number: only zero (NaN, the other
falsy number, does not occur in the rational ledger model). -/
def falsyQ (q : ℚ) : Bool := q == 0

/-- The validation and integrity check of importRecordFromJSON of
App.tsx (lines 244-265), applied to the already-parsed record; the
JSON.parse step itself is not modelled, and a successful parse is
assumed.  The check on record.translation of the source is omitted
because an object is always truthy.  Any falsy required field, or a
failing integrity check, yields null, modelled as none. -/
def importParsedRecord (record : HonestRecord) : Option HonestRecord :=
  if falsyS record.metricId || falsyQ record.metricValue ||
      falsyQ record.timestamp || falsyS record.recordHash then
    none
  else if verifyHonestRecord record then some record
  else none

end Ledger

namespace Fixtures

/-- A fresh, fully-populated feed carrying the given value, dated at the
reference instant 100000 used as Date.now() throughout the examples. -/
def feedAt (v : ℚ) : HonestCore.OracleFeed :=
  { source := "coingecko", asset := "AVAX", metric := "price",
    value := .num v, timestamp := .num 100000 }

/-- The aggregation scenario of the specification: four verified feeds
with the values 100, 102, 101 and 5000. -/
def metric4 : HonestCore.HonestMetric :=
  { id := "AVAX_PRICE", name := "Avalanche Price", description := "spot",
    inputs := [feedAt 100, feedAt 102, feedAt 101, feedAt 5000] }

/-- A metric with an empty input list. -/
def metricEmpty : HonestCore.HonestMetric :=
  { id := "AVAX_PRICE", name := "Avalanche Price", description := "spot",
    inputs := [] }

/-- A metric whose single feed is stale: its timestamp 0 lies more than
60000 ms before the reference instant 100000. -/
def metricStale : HonestCore.HonestMetric :=
  { id := "AVAX_PRICE", name := "Avalanche Price", description := "spot",
    inputs := [{ source := "coingecko", asset := "AVAX", metric := "price",
                 value := .num 100, timestamp := .num 0 }] }

/-- A metric with exactly one verified feed, of value 101. -/
def metricOne : HonestCore.HonestMetric :=
  { id := "AVAX_PRICE", name := "Avalanche Price", description := "spot",
    inputs := [feedAt 101] }

/-- A fresh feed whose value is positive infinity. -/
def feedOfInfinity : HonestCore.OracleFeed :=
  { source := "coingecko", asset := "AVAX", metric := "price",
    value := .inf, timestamp := .num 100000 }

/-- A feed dated ten years (in milliseconds) after the reference
instant 100000. -/
def feedFromFuture : HonestCore.OracleFeed :=
  { source := "coingecko", asset := "AVAX", metric := "price",
    value := .num 42, timestamp := .num (100000 + 315360000000) }

/-- The decision-threshold scenario of the specification. -/
def wsDims : Websockets.Dimensions :=
  { price := 0.9, volume := 0.5, momentum := 0.8, sentiment := 0.7,
    temporal := 0.1, spatial := 0.1 }

/-- A mirrored decision scenario with negative coherence drivers and
momentum -0.8, used to exercise the SELL branch. -/
def wsDimsSell : Websockets.Dimensions :=
  { price := -0.9, volume := -0.5, momentum := -0.8, sentiment := -0.7,
    temporal := -0.1, spatial := -0.1 }

/-- A sensory translation used by the ledger examples; the intensity
mkRat 3 4 is the decimal 0.75 and the pulse mkRat 1 2 is 0.5. -/
def baseTranslation : Ledger.SensoryTranslation :=
  { audioFrequency := 432, hapticIntensity := mkRat 3 4,
    visualColor := "#00ff88", visualPulse := mkRat 1 2 }

/-- A record produced by createHonestRecord at the reference instant;
its metric value mkRat 203 2 is the decimal 101.5. -/
def baseRecord : Ledger.HonestRecord :=
  Ledger.createHonestRecord "AVAX_PRICE" (mkRat 203 2) baseTranslation none none none 100000

/-- baseRecord with the translation field changed: its visualPulse is
0.9 (mkRat 9 10) instead of 0.5. -/
def pulseMutated : Ledger.HonestRecord :=
  { baseRecord with translation := { baseTranslation with visualPulse := mkRat 9 10 } }

/-- baseRecord with 1 added to its metricValue: mkRat 205 2 is 102.5,
one more than the 101.5 of baseRecord. -/
def valueMutated : Ledger.HonestRecord :=
  { baseRecord with metricValue := mkRat 205 2 }

/-- A record produced by createHonestRecord whose metricValue is 0; its
recordHash is the correct hash of its fields by construction. -/
def zeroValueRecord : Ledger.HonestRecord :=
  Ledger.createHonestRecord "AVAX_PRICE" 0 baseTranslation none none none 100000

end Fixtures

theorem ratAdd_eq (a b : ℚ) : ratAdd a b = a + b := by
  rw [ratAdd, Rat.divInt_eq_div]
  have ha : ((a.den : ℤ) : ℚ) ≠ 0 := by
    exact_mod_cast (Nat.cast_ne_zero (R := ℚ)).mpr a.den_nz
  have hb : ((b.den : ℤ) : ℚ) ≠ 0 := by
    exact_mod_cast (Nat.cast_ne_zero (R := ℚ)).mpr b.den_nz
  conv_rhs => rw [← Rat.num_div_den a, ← Rat.num_div_den b]
  push_cast at ha hb ⊢
  rw [div_add_div _ _ ha hb]
  ring_nf

theorem ratSub_eq (a b : ℚ) : ratSub a b = a - b := by
  rw [ratSub, Rat.divInt_eq_div]
  have ha : ((a.den : ℤ) : ℚ) ≠ 0 := by
    exact_mod_cast (Nat.cast_ne_zero (R := ℚ)).mpr a.den_nz
  have hb : ((b.den : ℤ) : ℚ) ≠ 0 := by
    exact_mod_cast (Nat.cast_ne_zero (R := ℚ)).mpr b.den_nz
  conv_rhs => rw [← Rat.num_div_den a, ← Rat.num_div_den b]
  push_cast at ha hb ⊢
  rw [div_sub_div _ _ ha hb]
  ring_nf

theorem ratMul_eq (a b : ℚ) : ratMul a b = a * b := by
  rw [ratMul, Rat.divInt_eq_div]
  conv_rhs => rw [← Rat.num_div_den a, ← Rat.num_div_den b]
  push_cast
  rw [div_mul_div_comm]

theorem ratDiv_eq (a b : ℚ) : ratDiv a b = a / b := by
  by_cases hb : b = 0
  · subst hb
    rw [ratDiv]
    norm_num
  · rw [ratDiv, Rat.divInt_eq_div]
    have ha : ((a.den : ℚ)) ≠ 0 := (Nat.cast_ne_zero (R := ℚ)).mpr a.den_nz
    have hbd : ((b.den : ℚ)) ≠ 0 := (Nat.cast_ne_zero (R := ℚ)).mpr b.den_nz
    have hbn : ((b.num : ℚ)) ≠ 0 := Int.cast_ne_zero.mpr (Rat.num_ne_zero.mpr hb)
    conv_rhs => rw [← Rat.num_div_den a, ← Rat.num_div_den b]
    push_cast
    field_simp

theorem sqrtFrom_pos (b n : Nat) (hb : 1 ≤ b) (hn : 1 ≤ n) : 1 ≤ sqrtFrom b n := by
  induction b with
  | zero => omega
  | succ k ih =>
    rw [sqrtFrom]
    split
    · omega
    · rename_i hcond
      rcases Nat.eq_zero_or_pos k with hk | hk
      · subst hk
        omega
      · exact ih hk

theorem natFloorSqrt_posOf (n : Nat) (hn : 1 ≤ n) : 1 ≤ natFloorSqrt n :=
  sqrtFrom_pos n n hn hn

theorem ratSqrt_zero : ratSqrt 0 = 0 := by decide

theorem ratSqrt_posOf (q : ℚ) (h : 0 < q) : 0 < ratSqrt q := by
  rw [ratSqrt, Rat.mkRat_eq_divInt, Rat.divInt_eq_div]
  have hnum : 0 < q.num := Rat.num_pos.mpr h
  have hprod : 1 ≤ q.num.toNat * q.den :=
    Nat.one_le_iff_ne_zero.mpr (Nat.mul_ne_zero
      (by omega) q.den_nz)
  have hs : 1 ≤ natFloorSqrt (q.num.toNat * q.den) := natFloorSqrt_posOf _ hprod
  have hd : (0 : ℚ) < (q.den : ℚ) := by
    exact_mod_cast Nat.pos_of_ne_zero q.den_nz
  apply div_pos _ hd
  push_cast
  exact_mod_cast Nat.lt_of_lt_of_le Nat.zero_lt_one hs

theorem ne_empty_iff_length_pos (s : String) : s ≠ "" ↔ 0 < s.length := by
  cases s with
  | mk data =>
    constructor
    · intro h
      have hd : data ≠ [] := by
        intro hnil
        exact h (by simp [hnil])
      simpa [String.length] using List.length_pos.mpr hd
    · intro h hs
      have : data = [] := by
        simpa using congrArg String.data hs
      simp [String.length, this] at h

theorem recent_iff (now : ℚ) (ts : HonestCore.JSNum) :
    HonestCore.jsLtB (HonestCore.jsSub (.num now) ts) (.num 60000) = true ↔
      (ts = .inf ∨ ∃ t : ℚ, ts = .num t ∧ now - t < 60000) := by
  cases ts <;> simp [HonestCore.jsSub, HonestCore.jsLtB, ratSub_eq]

theorem posvalue_iff (v : HonestCore.JSNum) :
    HonestCore.jsGtB v (.num 0) = true ↔
      (v = .inf ∨ ∃ q : ℚ, v = .num q ∧ 0 < q) := by
  cases v <;> simp [HonestCore.jsGtB]

/-- C4, counterexample: a fresh feed whose value is positive infinity
passes verifyOracleFeed of HONEST_CORE.ts, although its value is not a
finite number; the claim states such a feed is rejected. -/
theorem C4_counterexample_infinite_value_accepted :
    HonestCore.verifyOracleFeed 100000 Fixtures.feedOfInfinity = true ∧
      Fixtures.feedOfInfinity.value = HonestCore.JSNum.inf := by
  constructor
  · decide
  · rfl

/-- C4, amended: verifyOracleFeed of HONEST_CORE.ts returns true iff the
timestamp is either +Infinity or a number t with now - t < 60000, the
value compares strictly greater than zero under JavaScript semantics
(so NaN is rejected but +Infinity is accepted), and the source, asset
and metric strings are non-empty; the HONEST_Protocol_v1.ts version
checks only the first two conditions and ignores the string fields. -/
theorem C4_verify_feed_characterisation :
    (∀ (now : ℚ) (feed : HonestCore.OracleFeed),
      HonestCore.verifyOracleFeed now feed = true ↔
        ((feed.timestamp = .inf ∨ ∃ t : ℚ, feed.timestamp = .num t ∧ now - t < 60000) ∧
         (feed.value = .inf ∨ ∃ q : ℚ, feed.value = .num q ∧ 0 < q) ∧
         feed.source ≠ "" ∧ feed.asset ≠ "" ∧ feed.metric ≠ "")) ∧
    (∀ (now : ℚ) (feed : HonestCore.OracleFeed),
      Protocol1.verifyOracleFeed now feed = true ↔
        ((feed.timestamp = .inf ∨ ∃ t : ℚ, feed.timestamp = .num t ∧ now - t < 60000) ∧
         (feed.value = .inf ∨ ∃ q : ℚ, feed.value = .num q ∧ 0 < q))) := by
  constructor
  · intro now feed
    rw [← recent_iff now feed.timestamp, ← posvalue_iff feed.value,
      ne_empty_iff_length_pos, ne_empty_iff_length_pos, ne_empty_iff_length_pos]
    simp [HonestCore.verifyOracleFeed, and_assoc]
  · intro now feed
    rw [← recent_iff now feed.timestamp, ← posvalue_iff feed.value]
    simp [Protocol1.verifyOracleFeed]

/-- C10: verifyOracleFeed accepts every feed whose numeric timestamp t
satisfies now - 60000 < t, in particular timestamps arbitrarily far in
the future, provided the value compares greater than zero and (for the
HONEST_CORE version) the string fields are non-empty; the protocol
version imposes no string condition at all. -/
theorem C10_future_timestamps_verify :
    (∀ (now t : ℚ) (feed : HonestCore.OracleFeed), feed.timestamp = .num t →
      now - 60000 < t →
      HonestCore.jsGtB feed.value (.num 0) = true →
      feed.source ≠ "" → feed.asset ≠ "" → feed.metric ≠ "" →
      HonestCore.verifyOracleFeed now feed = true) ∧
    (∀ (now t : ℚ) (feed : HonestCore.OracleFeed), feed.timestamp = .num t →
      now - 60000 < t →
      HonestCore.jsGtB feed.value (.num 0) = true →
      Protocol1.verifyOracleFeed now feed = true) := by
  constructor
  · intro now t feed hts hfut hval hs ha hm
    have hrec : feed.timestamp = .inf ∨ ∃ u : ℚ, feed.timestamp = .num u ∧ now - u < 60000 :=
      Or.inr ⟨t, hts, by linarith⟩
    rw [← recent_iff now feed.timestamp] at hrec
    rw [ne_empty_iff_length_pos] at hs ha hm
    simp [HonestCore.verifyOracleFeed, hrec, hval, hs, ha, hm]
  · intro now t feed hts hfut hval
    have hrec : feed.timestamp = .inf ∨ ∃ u : ℚ, feed.timestamp = .num u ∧ now - u < 60000 :=
      Or.inr ⟨t, hts, by linarith⟩
    rw [← recent_iff now feed.timestamp] at hrec
    simp [Protocol1.verifyOracleFeed, hrec, hval]

/-- C10, witness: the fully-valid feed dated ten years past the
reference instant passes both verifiers. -/
theorem C10_witness :
    HonestCore.verifyOracleFeed 100000 Fixtures.feedFromFuture = true ∧
      Protocol1.verifyOracleFeed 100000 Fixtures.feedFromFuture = true :=
  ⟨C10_future_timestamps_verify.1 100000 (100000 + 315360000000) Fixtures.feedFromFuture
      rfl (by norm_num) (by decide) (by decide) (by decide) (by decide),
    C10_future_timestamps_verify.2 100000 (100000 + 315360000000) Fixtures.feedFromFuture
      rfl (by norm_num) (by decide)⟩

/-- C3, counterexample: on an empty input list, calculateHonestMetric
returns the value 0 rather than failing with a named error; the claim
states that an empty list fails fast with an EmptyInputError and that a
zero result indistinguishable from a measurement is never produced. -/
theorem C3_counterexample_empty_inputs_return_zero :
    HonestCore.calculateHonestMetric 100000 Fixtures.metricEmpty = .ok (.num 0) := rfl

/-- C3, amended: an empty input list returns 0 silently; only a
non-empty input list in which no feed verifies produces an error, the
no-verified-feeds message. -/
theorem C3_empty_returns_zero_unverified_throws :
    (∀ (now : ℚ) (metric : HonestCore.HonestMetric), metric.inputs = [] →
      HonestCore.calculateHonestMetric now metric = .ok (.num 0)) ∧
    (∀ (now : ℚ) (metric : HonestCore.HonestMetric), metric.inputs ≠ [] →
      metric.inputs.filter (fun feed => HonestCore.verifyOracleFeed now feed) = [] →
      HonestCore.calculateHonestMetric now metric =
        .error ("[HONEST-CORE] Cannot calculate " ++ metric.id ++ ": No verified feeds.")) := by
  constructor
  · intro now metric h
    simp [HonestCore.calculateHonestMetric, h]
  · intro now metric hne hfil
    have hlen : metric.inputs.length ≠ 0 := by
      simpa [List.length_eq_zero] using hne
    simp [HonestCore.calculateHonestMetric, hlen, hfil]

/-- C3, witness: the empty metric returns 0 and the metric whose only
feed is stale errors out. -/
theorem C3_witness :
    HonestCore.calculateHonestMetric 100000 Fixtures.metricEmpty = .ok (.num 0) ∧
      HonestCore.calculateHonestMetric 100000 Fixtures.metricStale =
        .error "[HONEST-CORE] Cannot calculate AVAX_PRICE: No verified feeds." :=
  ⟨C3_empty_returns_zero_unverified_throws.1 100000 Fixtures.metricEmpty rfl,
    C3_empty_returns_zero_unverified_throws.2 100000 Fixtures.metricStale
      (by decide) (by decide)⟩

/-- C9: the import validation of App.tsx rejects, with a null result,
every parsed record whose metricValue is 0, whose timestamp is 0 or
whose metricId is the empty string, since the required-field check
treats any falsy field as missing; the integrity of recordHash is never
reached. -/
theorem C9_falsy_fields_reject_import (record : Ledger.HonestRecord)
    (h : record.metricValue = 0 ∨ record.timestamp = 0 ∨ record.metricId = "") :
    Ledger.importParsedRecord record = none := by
  unfold Ledger.importParsedRecord
  rcases h with h | h | h <;> simp [Ledger.falsyQ, Ledger.falsyS, h]

/-- C9, witness: a record created by createHonestRecord with metricValue
0 carries the correct hash of its fields, yet the import validation
returns none. -/
theorem verify_create_roundtrip (metricId : String) (metricValue : ℚ)
    (translation : Ledger.SensoryTranslation) (coherence exhaustion : Option ℚ)
    (sources : Option (List String)) (now : ℚ) :
    Ledger.verifyHonestRecord
      (Ledger.createHonestRecord metricId metricValue translation
        coherence exhaustion sources now) = true := by
  simp [Ledger.verifyHonestRecord, Ledger.createHonestRecord]

/-- C9, witness: a record created by createHonestRecord with metricValue
0 carries the correct hash of its fields, yet the import validation
returns none. -/
theorem C9_witness :
    Ledger.importParsedRecord Fixtures.zeroValueRecord = none ∧
      Ledger.verifyHonestRecord Fixtures.zeroValueRecord = true :=
  ⟨C9_falsy_fields_reject_import Fixtures.zeroValueRecord (Or.inl rfl),
    verify_create_roundtrip "AVAX_PRICE" 0 Fixtures.baseTranslation none none none 100000⟩

set_option maxRecDepth 2400 in
theorem hashString_base_eval :
    Ledger.hashString (Ledger.ledgerDataString "AVAX_PRICE" (mkRat 203 2) 432 (mkRat 3 4)
      "#00ff88" 100000 none none none) = "313eeed9" := by
  have hds : Ledger.ledgerDataString "AVAX_PRICE" (mkRat 203 2) 432 (mkRat 3 4)
      "#00ff88" 100000 none none none =
      "\x7b\"metricId\":\"AVAX_PRICE\",\"metricValue\":101.5,\"audioFrequency\":432,\"hapticIntensity\":0.75,\"visualColor\":\"#00ff88\",\"timestamp\":100000\x7d" := by
    decide
  have hsplit :
      ("\x7b\"metricId\":\"AVAX_PRICE\",\"metricValue\":101.5,\"audioFrequency\":432,\"hapticIntensity\":0.75,\"visualColor\":\"#00ff88\",\"timestamp\":100000\x7d" : String).data =
      ("\x7b\"metricId\":\"AVAX_PR" : String).data ++ ("ICE\",\"metricValue\":1" : String).data ++
      ("01.5,\"audioFrequency" : String).data ++ ("\":432,\"hapticIntensi" : String).data ++
      ("ty\":0.75,\"visualColo" : String).data ++ ("r\":\"#00ff88\",\"timest" : String).data ++
      ("amp\":100000\x7d" : String).data := by decide
  have s1 : List.foldl (fun hash c => Ledger.hashStep hash c.toNat) 0
      ("\x7b\"metricId\":\"AVAX_PR" : String).data = 1880178269 := by decide
  have s2 : List.foldl (fun hash c => Ledger.hashStep hash c.toNat) 1880178269
      ("ICE\",\"metricValue\":1" : String).data = -347721854 := by decide
  have s3 : List.foldl (fun hash c => Ledger.hashStep hash c.toNat) (-347721854)
      ("01.5,\"audioFrequency" : String).data = -1781722330 := by decide
  have s4 : List.foldl (fun hash c => Ledger.hashStep hash c.toNat) (-1781722330)
      ("\":432,\"hapticIntensi" : String).data = 979895660 := by decide
  have s5 : List.foldl (fun hash c => Ledger.hashStep hash c.toNat) 979895660
      ("ty\":0.75,\"visualColo" : String).data = 785273514 := by decide
  have s6 : List.foldl (fun hash c => Ledger.hashStep hash c.toNat) 785273514
      ("r\":\"#00ff88\",\"timest" : String).data = 1365121925 := by decide
  have s7 : List.foldl (fun hash c => Ledger.hashStep hash c.toNat) 1365121925
      ("amp\":100000\x7d" : String).data = -826207961 := by decide
  rw [hds]
  unfold Ledger.hashString
  rw [hsplit, List.foldl_append, List.foldl_append, List.foldl_append,
    List.foldl_append, List.foldl_append, List.foldl_append,
    s1, s2, s3, s4, s5, s6, s7]
  decide

set_option maxRecDepth 2400 in
theorem hashString_mutated_eval :
    Ledger.hashString (Ledger.ledgerDataString "AVAX_PRICE" (mkRat 205 2) 432 (mkRat 3 4)
      "#00ff88" 100000 none none none) = "6b146618" := by
  have hds : Ledger.ledgerDataString "AVAX_PRICE" (mkRat 205 2) 432 (mkRat 3 4)
      "#00ff88" 100000 none none none =
      "\x7b\"metricId\":\"AVAX_PRICE\",\"metricValue\":102.5,\"audioFrequency\":432,\"hapticIntensity\":0.75,\"visualColor\":\"#00ff88\",\"timestamp\":100000\x7d" := by
    decide
  have hsplit :
      ("\x7b\"metricId\":\"AVAX_PRICE\",\"metricValue\":102.5,\"audioFrequency\":432,\"hapticIntensity\":0.75,\"visualColor\":\"#00ff88\",\"timestamp\":100000\x7d" : String).data =
      ("\x7b\"metricId\":\"AVAX_PR" : String).data ++ ("ICE\",\"metricValue\":1" : String).data ++
      ("02.5,\"audioFrequency" : String).data ++ ("\":432,\"hapticIntensi" : String).data ++
      ("ty\":0.75,\"visualColo" : String).data ++ ("r\":\"#00ff88\",\"timest" : String).data ++
      ("amp\":100000\x7d" : String).data := by decide
  have s1 : List.foldl (fun hash c => Ledger.hashStep hash c.toNat) 0
      ("\x7b\"metricId\":\"AVAX_PR" : String).data = 1880178269 := by decide
  have s2 : List.foldl (fun hash c => Ledger.hashStep hash c.toNat) 1880178269
      ("ICE\",\"metricValue\":1" : String).data = -347721854 := by decide
  have s3 : List.foldl (fun hash c => Ledger.hashStep hash c.toNat) (-347721854)
      ("02.5,\"audioFrequency" : String).data = 1668773095 := by decide
  have s4 : List.foldl (fun hash c => Ledger.hashStep hash c.toNat) 1668773095
      ("\":432,\"hapticIntensi" : String).data = 57212077 := by decide
  have s5 : List.foldl (fun hash c => Ledger.hashStep hash c.toNat) 57212077
      ("ty\":0.75,\"visualColo" : String).data = 1065623403 := by decide
  have s6 : List.foldl (fun hash c => Ledger.hashStep hash c.toNat) 1065623403
      ("r\":\"#00ff88\",\"timest" : String).data = 1485241798 := by decide
  have s7 : List.foldl (fun hash c => Ledger.hashStep hash c.toNat) 1485241798
      ("amp\":100000\x7d" : String).data = -1796498968 := by decide
  rw [hds]
  unfold Ledger.hashString
  rw [hsplit, List.foldl_append, List.foldl_append, List.foldl_append,
    List.foldl_append, List.foldl_append, List.foldl_append,
    s1, s2, s3, s4, s5, s6, s7]
  decide

/-- C2, counterexample: mutating the translation field of a created
record, by changing its visualPulse from 0.5 to 0.9, leaves
verifyHonestRecord returning true, because visualPulse is not part of
the hashed canonical string; the claim states that changing any one
field of the record makes re-verification fail. -/
theorem C2_counterexample_pulse_mutation_passes :
    Ledger.verifyHonestRecord Fixtures.pulseMutated = true ∧
      Fixtures.pulseMutated.translation.visualPulse ≠
        Fixtures.baseRecord.translation.visualPulse := by
  constructor
  · simp [Fixtures.pulseMutated, Fixtures.baseRecord, Fixtures.baseTranslation,
      Ledger.createHonestRecord, Ledger.verifyHonestRecord]
  · decide

/-- C2, amended: every record produced by createHonestRecord passes
verifyHonestRecord; mutating a hashed field is detected whenever the
recomputed hash differs, as it does in the concrete case of adding 1 to
the metricValue 101.5 of a created record; only the unhashed
visualPulse component escapes detection. -/
theorem C2_roundtrip_and_hashed_mutation_detected :
    (∀ (metricId : String) (metricValue : ℚ) (translation : Ledger.SensoryTranslation)
        (coherence exhaustion : Option ℚ) (sources : Option (List String)) (now : ℚ),
      Ledger.verifyHonestRecord
        (Ledger.createHonestRecord metricId metricValue translation
          coherence exhaustion sources now) = true) ∧
    Fixtures.valueMutated.metricValue = Fixtures.baseRecord.metricValue + 1 ∧
    Ledger.verifyHonestRecord Fixtures.valueMutated = false := by
  refine ⟨verify_create_roundtrip, ?_, ?_⟩
  · show (mkRat 205 2 : ℚ) = mkRat 203 2 + 1
    rw [Rat.mkRat_eq_divInt, Rat.mkRat_eq_divInt, Rat.divInt_eq_div, Rat.divInt_eq_div]
    norm_num
  · simp only [Fixtures.valueMutated, Fixtures.baseRecord, Fixtures.baseTranslation,
      Ledger.createHonestRecord, Ledger.verifyHonestRecord]
    rw [hashString_base_eval, hashString_mutated_eval]
    decide

theorem jsAdd_num (a b : ℚ) :
    HonestCore.jsAdd (.num a) (.num b) = .num (a + b) := by
  simp [HonestCore.jsAdd, ratAdd_eq]

theorem jsSub_num (a b : ℚ) :
    HonestCore.jsSub (.num a) (.num b) = .num (a - b) := by
  simp [HonestCore.jsSub, ratSub_eq]

theorem jsPow2_num (a : ℚ) :
    HonestCore.jsPow2 (.num a) = .num (a * a) := by
  simp [HonestCore.jsPow2, ratMul_eq]

theorem jsDiv_num (a b : ℚ) (hb : b ≠ 0) :
    HonestCore.jsDiv (.num a) (.num b) = .num (a / b) := by
  simp [HonestCore.jsDiv, hb, ratDiv_eq]

theorem jsLeRel_num (a b : ℚ) :
    HonestCore.jsLeRel (.num a) (.num b) ↔ a ≤ b := by
  simp [HonestCore.jsLeRel, HonestCore.jsGtB, HonestCore.jsSub, ratSub_eq, sub_pos, not_lt]

theorem orderedInsert_map_num (a : ℚ) (l : List ℚ) :
    (l.map HonestCore.JSNum.num).orderedInsert HonestCore.jsLeRel (.num a) =
      (l.orderedInsert (· ≤ ·) a).map HonestCore.JSNum.num := by
  induction l with
  | nil => simp [List.orderedInsert]
  | cons b t ih =>
    by_cases hab : a ≤ b
    · have h : HonestCore.jsLeRel (.num a) (.num b) := (jsLeRel_num a b).mpr hab
      simp [List.orderedInsert, hab, h]
    · have h : ¬ HonestCore.jsLeRel (.num a) (.num b) := fun hc => hab ((jsLeRel_num a b).mp hc)
      simp [List.orderedInsert, hab, h, ih]

theorem insertionSort_map_num (qs : List ℚ) :
    (qs.map HonestCore.JSNum.num).insertionSort HonestCore.jsLeRel =
      (qs.insertionSort (· ≤ ·)).map HonestCore.JSNum.num := by
  induction qs with
  | nil => simp [List.insertionSort]
  | cons a l ih =>
    simp only [List.map_cons, List.insertionSort, ih]
    exact orderedInsert_map_num a (l.insertionSort (· ≤ ·))

theorem getD_map_num (l : List ℚ) (i : Nat) :
    (l.map HonestCore.JSNum.num).getD i (.num 0) = .num (l.getD i 0) := by
  induction l generalizing i with
  | nil => cases i <;> simp [List.getD]
  | cons a t ih => cases i <;> simp [List.getD, ih]

/-- C8: when exactly one feed passes the verifier, calculateHonestMetric
returns that feed's value; and calculateCoherence of a list with at
most one feed is exactly 1. -/
theorem C8_single_verified_source :
    (∀ (now : ℚ) (metric : HonestCore.HonestMetric) (f : HonestCore.OracleFeed),
      metric.inputs.filter (fun feed => HonestCore.verifyOracleFeed now feed) = [f] →
      HonestCore.calculateHonestMetric now metric = .ok f.value) ∧
    (∀ feeds : List HonestCore.OracleFeed, feeds.length ≤ 1 →
      HonestCore.calculateCoherence feeds = .num 1) := by
  constructor
  · intro now metric f hfil
    have hne : metric.inputs ≠ [] := by
      intro h
      rw [h] at hfil
      simp at hfil
    have hlen : metric.inputs.length ≠ 0 := by
      simpa [List.length_eq_zero] using hne
    simp [HonestCore.calculateHonestMetric, hlen, hfil]
  · intro feeds hlen
    simp [HonestCore.calculateCoherence, hlen]

/-- C8, witness: the metric whose only feed carries 101 evaluates to
101, and a one-feed list has coherence 1. -/
theorem C8_witness :
    HonestCore.calculateHonestMetric 100000 Fixtures.metricOne = .ok (.num 101) ∧
      HonestCore.calculateCoherence [Fixtures.feedAt 5] = .num 1 :=
  ⟨C8_single_verified_source.1 100000 Fixtures.metricOne (Fixtures.feedAt 101) (by decide),
    C8_single_verified_source.2 [Fixtures.feedAt 5] (by decide)⟩

/-- C1, counterexample: on the four verified feeds with values 100, 102,
101, 5000 the aggregation returns 102, the element at index 2 of the
ascending sort, not the even-count median 101.5 the claim asserts. -/
theorem C1_counterexample_consensus_is_102 :
    HonestCore.calculateHonestMetric 100000 Fixtures.metric4 = .ok (.num 102) ∧
      (102 : ℚ) ≠ mkRat 203 2 := by
  constructor
  · decide
  · decide

/-- C1, amended: with two or more verified feeds, all finite-valued,
calculateHonestMetric returns the element at index ⌊n/2⌋ of the
ascending-sorted list of verified values: the upper median, which
coincides with the median only for odd n.  For the concrete scenario
[100, 102, 101, 5000] the consensus is 102 rather than the mean. -/
theorem C1_consensus_upper_median :
    (∀ (now : ℚ) (metric : HonestCore.HonestMetric) (qs : List ℚ),
      (metric.inputs.filter (fun feed => HonestCore.verifyOracleFeed now feed)).map
          (fun feed => feed.value) = qs.map .num →
      2 ≤ qs.length →
      HonestCore.calculateHonestMetric now metric =
        .ok (.num ((qs.insertionSort (· ≤ ·)).getD (qs.length / 2) 0))) ∧
    HonestCore.calculateHonestMetric 100000 Fixtures.metric4 = .ok (.num 102) := by
  constructor
  · intro now metric qs hmap hlen2
    have hflen : (metric.inputs.filter
        (fun feed => HonestCore.verifyOracleFeed now feed)).length = qs.length := by
      have := congrArg List.length hmap
      simpa using this
    have hne : metric.inputs ≠ [] := by
      intro h
      rw [h] at hflen
      simp at hflen
      omega
    have hlen : metric.inputs.length ≠ 0 := by
      simpa [List.length_eq_zero] using hne
    rw [HonestCore.calculateHonestMetric, if_neg hlen, if_neg (by omega),
      if_neg (by omega), hmap, insertionSort_map_num]
    simp only [List.length_map, List.length_insertionSort, getD_map_num]
  · decide

/-- C1, witness: the amended rule applied to the concrete scenario; the
sorted values are [100, 101, 102, 5000] and index ⌊4/2⌋ holds 102. -/
theorem C1_witness :
    HonestCore.calculateHonestMetric 100000 Fixtures.metric4 =
      .ok (.num ((([100, 102, 101, 5000] : List ℚ).insertionSort (· ≤ ·)).getD
        (([100, 102, 101, 5000] : List ℚ).length / 2) 0)) :=
  C1_consensus_upper_median.1 100000 Fixtures.metric4 [100, 102, 101, 5000]
    (by decide) (by decide)

theorem foldl_jsAdd_not_num (l : List HonestCore.JSNum) (acc : HonestCore.JSNum)
    (hacc : ∀ q : ℚ, acc ≠ .num q) (s : ℚ) :
    l.foldl HonestCore.jsAdd acc ≠ .num s := by
  induction l generalizing acc with
  | nil => simpa using hacc s
  | cons x t ih =>
    intro h
    refine ih (HonestCore.jsAdd acc x) ?_ (by simpa using h)
    intro q
    cases acc with
    | num a => exact absurd rfl (hacc a)
    | nan => cases x <;> simp [HonestCore.jsAdd]
    | inf => cases x <;> simp [HonestCore.jsAdd]
    | ninf => cases x <;> simp [HonestCore.jsAdd]

theorem foldl_jsAdd_num_inv (l : List HonestCore.JSNum) (a s : ℚ)
    (h : l.foldl HonestCore.jsAdd (.num a) = .num s) :
    ∃ qs : List ℚ, l = qs.map .num ∧ s = a + qs.sum := by
  induction l generalizing a with
  | nil =>
    refine ⟨[], rfl, ?_⟩
    simp only [List.foldl_nil, HonestCore.JSNum.num.injEq] at h
    simp [h.symm]
  | cons x t ih =>
    cases x with
    | num q =>
      have h' : t.foldl HonestCore.jsAdd (.num (a + q)) = .num s := by
        simpa [HonestCore.jsAdd, ratAdd_eq] using h
      obtain ⟨qs, rfl, hs⟩ := ih (a + q) h'
      exact ⟨q :: qs, rfl, by rw [hs]; simp; ring⟩
    | nan =>
      exact absurd (by simpa [HonestCore.jsAdd] using h)
        (foldl_jsAdd_not_num t .nan (fun q => by simp) s)
    | inf =>
      exact absurd (by simpa [HonestCore.jsAdd] using h)
        (foldl_jsAdd_not_num t .inf (fun q => by simp) s)
    | ninf =>
      exact absurd (by simpa [HonestCore.jsAdd] using h)
        (foldl_jsAdd_not_num t .ninf (fun q => by simp) s)

theorem foldl_sq_dev_zero (qs : List ℚ) (a : ℚ) :
    (qs.map HonestCore.JSNum.num).foldl
      (fun sum v => HonestCore.jsAdd sum (HonestCore.jsPow2 (HonestCore.jsSub v (.num 0))))
      (.num a) = .num (a + (qs.map (fun q => q * q)).sum) := by
  induction qs generalizing a with
  | nil => simp
  | cons q t ih =>
    simp only [List.map_cons, List.foldl_cons, jsSub_num, sub_zero, jsPow2_num, jsAdd_num,
      List.sum_cons, ih]
    rw [add_assoc]

theorem sum_sq_pos_of_mem (qs : List ℚ) (q : ℚ) (hq : q ∈ qs) (hne : q ≠ 0) :
    0 < (qs.map (fun x => x * x)).sum := by
  induction qs with
  | nil => cases hq
  | cons a t ih =>
    simp only [List.map_cons, List.sum_cons]
    have htnn : 0 ≤ (t.map (fun x => x * x)).sum :=
      List.sum_nonneg (by
        intro x hx
        obtain ⟨y, _, rfl⟩ := List.mem_map.mp hx
        exact mul_self_nonneg y)
    rcases List.mem_cons.mp hq with rfl | hmem
    · have : 0 < q * q := mul_self_pos.mpr hne
      linarith
    · have := ih hmem
      have : 0 ≤ a * a := mul_self_nonneg a
      linarith

/-- C6, counterexample: a two-feed list whose values are both zero has
mean zero, yet calculateCoherence returns NaN (the source computes
0/0 for the normalized deviation and 1 - min(NaN, 1) = NaN), not the
fallback 0 the claim asserts; so the computation can return NaN. -/
theorem C6_counterexample_all_zero_feeds_give_nan :
    HonestCore.calculateCoherence [Fixtures.feedAt 0, Fixtures.feedAt 0] =
      HonestCore.JSNum.nan := by decide

/-- C6, amended: for a list of at least two feeds whose values sum to
zero (mean zero) and include a nonzero value, calculateCoherence is the
defined value 0, reached through an infinite normalized deviation; only
the all-zero mean-zero lists escape to NaN, and single-feed lists
return 1. -/
theorem C6_zero_mean_coherence (feeds : List HonestCore.OracleFeed)
    (hlen : 2 ≤ feeds.length)
    (hsum : (feeds.map (fun f => f.value)).foldl HonestCore.jsAdd (.num 0) = .num 0)
    (hex : ∃ f ∈ feeds, f.value ≠ .num 0) :
    HonestCore.calculateCoherence feeds = .num 0 := by
  obtain ⟨qs, hqs, hsum0⟩ := foldl_jsAdd_num_inv _ 0 0 hsum
  obtain ⟨f, hf, hfne⟩ := hex
  have hlenq : qs.length = feeds.length := by
    have := congrArg List.length hqs
    simpa using this.symm
  have hn0 : ((feeds.length : ℚ)) ≠ 0 := by
    have : 0 < feeds.length := by omega
    exact_mod_cast Nat.pos_iff_ne_zero.mp (by exact_mod_cast this)
  -- the nonzero value of hex is one of the rationals of qs
  have hqmem : ∃ q ∈ qs, q ≠ 0 := by
    have hvmem : f.value ∈ feeds.map (fun f => f.value) := List.mem_map_of_mem _ hf
    rw [hqs] at hvmem
    obtain ⟨q, hqmem, hqeq⟩ := List.mem_map.mp hvmem
    exact ⟨q, hqmem, fun h0 => hfne (by rw [← hqeq, h0])⟩
  obtain ⟨q, hqin, hqne⟩ := hqmem
  have hSpos : 0 < (qs.map (fun x => x * x)).sum := sum_sq_pos_of_mem qs q hqin hqne
  rw [HonestCore.calculateCoherence, if_neg (by omega)]
  rw [hqs] at hsum
  simp only [hqs, hsum]
  rw [List.length_map, hlenq]
  rw [show HonestCore.jsDiv (.num 0) (.num (feeds.length : ℚ)) = .num 0 from by
    rw [jsDiv_num 0 _ hn0, zero_div]]
  rw [foldl_sq_dev_zero qs 0, zero_add]
  rw [jsDiv_num _ _ hn0]
  have hvarpos : 0 < (qs.map (fun x => x * x)).sum / (feeds.length : ℚ) := by
    apply div_pos hSpos
    exact_mod_cast by omega
  rw [show HonestCore.jsSqrt (.num ((qs.map (fun x => x * x)).sum / (feeds.length : ℚ))) =
      .num (ratSqrt ((qs.map (fun x => x * x)).sum / (feeds.length : ℚ))) from by
    simp [HonestCore.jsSqrt, not_lt.mpr (le_of_lt hvarpos)]]
  have hsq : 0 < ratSqrt ((qs.map (fun x => x * x)).sum / (feeds.length : ℚ)) :=
    ratSqrt_posOf _ hvarpos
  rw [show HonestCore.jsDiv
      (.num (ratSqrt ((qs.map (fun x => x * x)).sum / (feeds.length : ℚ)))) (.num 0) =
      .inf from by simp [HonestCore.jsDiv, ne_of_gt hsq, hsq]]
  rw [show HonestCore.jsMin .inf (.num 1) = .num 1 from rfl]
  rw [jsSub_num]
  norm_num

/-- C6, witness: the feeds with values -1 and 1 have mean zero and a
nonzero value, and their coherence is 0. -/
theorem C6_witness :
    HonestCore.calculateCoherence [Fixtures.feedAt (-1), Fixtures.feedAt 1] = .num 0 :=
  C6_zero_mean_coherence [Fixtures.feedAt (-1), Fixtures.feedAt 1] (by decide) (by decide)
    ⟨Fixtures.feedAt 1, by decide, by decide⟩

theorem ws_coherence_wsDims :
    Websockets.calculateCoherence Fixtures.wsDims = 0.625 := by
  rw [Websockets.calculateCoherence]
  show max (-1) (min 1 (Fixtures.wsDims.price * 0.25 + Fixtures.wsDims.volume * 0.15 +
    Fixtures.wsDims.momentum * 0.25 + Fixtures.wsDims.sentiment * 0.15 +
    Fixtures.wsDims.temporal * 0.10 + Fixtures.wsDims.spatial * 0.10)) = 0.625
  have hsum : Fixtures.wsDims.price * 0.25 + Fixtures.wsDims.volume * 0.15 +
      Fixtures.wsDims.momentum * 0.25 + Fixtures.wsDims.sentiment * 0.15 +
      Fixtures.wsDims.temporal * 0.10 + Fixtures.wsDims.spatial * 0.10 = 0.625 := by
    norm_num [Fixtures.wsDims]
  rw [hsum, min_eq_right (by norm_num), max_eq_right (by norm_num)]

theorem one_gt_half : (1 : ℚ) > 0.5 := by norm_num

theorem neg_one_lt_neg_half : (-1 : ℚ) < -0.5 := by norm_num

theorem wsDims_momentum_gt : Fixtures.wsDims.momentum > 0.3 := by
  norm_num [Fixtures.wsDims]

theorem wsDimsSell_momentum_lt : Fixtures.wsDimsSell.momentum < -0.3 := by
  norm_num [Fixtures.wsDimsSell]

theorem zero_coherence_not_buy :
    ¬((0 : ℚ) > 0.5 ∧ Fixtures.wsDims.momentum > 0.3) := by
  rintro ⟨h, -⟩
  norm_num at h

theorem zero_coherence_not_sell :
    ¬((0 : ℚ) < -0.5 ∧ Fixtures.wsDims.momentum < -0.3) := by
  rintro ⟨h, -⟩
  norm_num at h

/-- C5, counterexample: the weighted coherence of the dimensions
(price 0.9, volume 0.5, momentum 0.8, sentiment 0.7, temporal 0.1,
spatial 0.1) is 0.625, not the 0.635 asserted by the claim (the claim's
own summands 0.225 + 0.2 + 0.075 + 0.105 + 0.01 + 0.01 add to 0.625). -/
theorem C5_counterexample_coherence_0625 :
    Websockets.calculateCoherence Fixtures.wsDims = 0.625 ∧ (0.625 : ℚ) ≠ 0.635 := by
  exact ⟨ws_coherence_wsDims, by norm_num⟩

/-- C5, amended: the decision map is as claimed (coherence above 0.5
with momentum above 0.3 buys, coherence below -0.5 with momentum below
-0.3 sells, anything else holds), and on the concrete scenario the
weighted coherence is 0.625 — not 0.635 — which still exceeds 0.5, so
with momentum 0.8 the decision is BUY. -/
theorem C5_decision_thresholds :
    (∀ (coherence : ℚ) (d : Websockets.Dimensions), coherence > 0.5 → d.momentum > 0.3 →
      Websockets.determineDecision coherence d = .BUY) ∧
    (∀ (coherence : ℚ) (d : Websockets.Dimensions), coherence < -0.5 → d.momentum < -0.3 →
      Websockets.determineDecision coherence d = .SELL) ∧
    (∀ (coherence : ℚ) (d : Websockets.Dimensions),
      ¬(coherence > 0.5 ∧ d.momentum > 0.3) → ¬(coherence < -0.5 ∧ d.momentum < -0.3) →
      Websockets.determineDecision coherence d = .HOLD) ∧
    Websockets.calculateCoherence Fixtures.wsDims = 0.625 ∧
    Websockets.determineDecision (Websockets.calculateCoherence Fixtures.wsDims)
      Fixtures.wsDims = .BUY := by
  refine ⟨?_, ?_, ?_, ws_coherence_wsDims, ?_⟩
  · intro c d h1 h2
    simp [Websockets.determineDecision, h1, h2]
  · intro c d h1 h2
    have hnb : ¬(c > 0.5 ∧ d.momentum > 0.3) := by
      rintro ⟨hc, -⟩
      linarith
    simp [Websockets.determineDecision, hnb, h1, h2]
  · intro c d h1 h2
    simp [Websockets.determineDecision, h1, h2]
  · rw [ws_coherence_wsDims, Websockets.determineDecision,
      if_pos ⟨by norm_num, wsDims_momentum_gt⟩]

/-- C5, witness: the three branches of the decision map exercised at
concrete coherence values and dimensions. -/
theorem C5_witness :
    Websockets.determineDecision 1 Fixtures.wsDims = .BUY ∧
      Websockets.determineDecision (-1) Fixtures.wsDimsSell = .SELL ∧
      Websockets.determineDecision 0 Fixtures.wsDims = .HOLD :=
  ⟨C5_decision_thresholds.1 1 Fixtures.wsDims one_gt_half wsDims_momentum_gt,
    C5_decision_thresholds.2.1 (-1) Fixtures.wsDimsSell neg_one_lt_neg_half
      wsDimsSell_momentum_lt,
    C5_decision_thresholds.2.2.1 0 Fixtures.wsDims zero_coherence_not_buy
      zero_coherence_not_sell⟩

theorem abs_tanh_lt_one (x : ℝ) : |Real.tanh x| < 1 := by
  rw [Real.tanh_eq_sinh_div_cosh, abs_div, abs_of_pos (Real.cosh_pos x),
    div_lt_one (Real.cosh_pos x)]
  rcases abs_cases (Real.sinh x) with ⟨h, -⟩ | ⟨h, -⟩
  · rw [h]
    exact Real.sinh_lt_cosh x
  · rw [h]
    have hneg := Real.sinh_lt_cosh (-x)
    rw [Real.sinh_neg, Real.cosh_neg] at hneg
    linarith

theorem tanh_bounds (x : ℝ) : -1 ≤ Real.tanh x ∧ Real.tanh x ≤ 1 := by
  have h := abs_lt.mp (abs_tanh_lt_one x)
  exact ⟨le_of_lt h.1, le_of_lt h.2⟩

/-- C7: every dimension produced by calculateEigenstate lies in [-1, 1]
for every real input, and both coherence computations — the
dispersion-based one of part_005 and the clamped weighted sum of
websockets.ts — return values in [-1, 1] on every dimensions record. -/
theorem C7_range_invariants :
    (∀ price volume priceChange marketCap nowMs : ℝ,
      ((-1 ≤ (Eigenstate.calculateEigenstate price volume priceChange marketCap nowMs).price ∧
        (Eigenstate.calculateEigenstate price volume priceChange marketCap nowMs).price ≤ 1) ∧
       (-1 ≤ (Eigenstate.calculateEigenstate price volume priceChange marketCap nowMs).volume ∧
        (Eigenstate.calculateEigenstate price volume priceChange marketCap nowMs).volume ≤ 1) ∧
       (-1 ≤ (Eigenstate.calculateEigenstate price volume priceChange marketCap nowMs).momentum ∧
        (Eigenstate.calculateEigenstate price volume priceChange marketCap nowMs).momentum ≤ 1) ∧
       (-1 ≤ (Eigenstate.calculateEigenstate price volume priceChange marketCap nowMs).sentiment ∧
        (Eigenstate.calculateEigenstate price volume priceChange marketCap nowMs).sentiment ≤ 1) ∧
       (-1 ≤ (Eigenstate.calculateEigenstate price volume priceChange marketCap nowMs).temporal ∧
        (Eigenstate.calculateEigenstate price volume priceChange marketCap nowMs).temporal ≤ 1) ∧
       (-1 ≤ (Eigenstate.calculateEigenstate price volume priceChange marketCap nowMs).spatial ∧
        (Eigenstate.calculateEigenstate price volume priceChange marketCap nowMs).spatial ≤ 1))) ∧
    (∀ d : Eigenstate.Dimensions,
      -1 ≤ Eigenstate.calculateCoherence d ∧ Eigenstate.calculateCoherence d ≤ 1) ∧
    (∀ d : Websockets.Dimensions,
      -1 ≤ Websockets.calculateCoherence d ∧ Websockets.calculateCoherence d ≤ 1) := by
  refine ⟨?_, ?_, ?_⟩
  · intro price volume priceChange marketCap nowMs
    simp only [Eigenstate.calculateEigenstate]
    obtain ⟨hp1, hp2⟩ := tanh_bounds (price / 50000)
    obtain ⟨hv1, hv2⟩ := tanh_bounds (volume / 1000000000)
    obtain ⟨hm1, hm2⟩ := tanh_bounds (priceChange / 10)
    have hs1 := Real.neg_one_le_sin (nowMs / 1000 / 3600)
    have hs2 := Real.sin_le_one (nowMs / 1000 / 3600)
    have hc1 := Real.neg_one_le_cos (nowMs / 1000 / 3600)
    have hc2 := Real.cos_le_one (nowMs / 1000 / 3600)
    refine ⟨⟨hp1, hp2⟩, ⟨hv1, hv2⟩, ⟨hm1, hm2⟩, ⟨by linarith, by linarith⟩,
      ⟨by linarith, by linarith⟩, ⟨by linarith, by linarith⟩⟩
  · intro d
    rw [Eigenstate.calculateCoherence]
    have hs : 0 ≤ Real.sqrt (([d.price, d.volume, d.momentum, d.sentiment, d.temporal,
        d.spatial].map (fun b => (b - [d.price, d.volume, d.momentum, d.sentiment,
        d.temporal, d.spatial].sum / ([d.price, d.volume, d.momentum, d.sentiment,
        d.temporal, d.spatial].length : ℝ)) ^ 2)).sum /
        ([d.price, d.volume, d.momentum, d.sentiment, d.temporal, d.spatial].length : ℝ)) :=
      Real.sqrt_nonneg _
    set s := Real.sqrt (([d.price, d.volume, d.momentum, d.sentiment, d.temporal,
        d.spatial].map (fun b => (b - [d.price, d.volume, d.momentum, d.sentiment,
        d.temporal, d.spatial].sum / ([d.price, d.volume, d.momentum, d.sentiment,
        d.temporal, d.spatial].length : ℝ)) ^ 2)).sum /
        ([d.price, d.volume, d.momentum, d.sentiment, d.temporal, d.spatial].length : ℝ))
      with hsdef
    have hmin1 : min (s * 2) 1 ≤ 1 := min_le_right _ _
    have hmin0 : 0 ≤ min (s * 2) 1 := le_min (by linarith) (by norm_num)
    split <;> constructor <;> linarith
  · intro d
    rw [Websockets.calculateCoherence]
    constructor
    · exact le_max_left _ _
    · exact max_le (by norm_num) (min_le_left _ _)
